import Mathlib

/-!
Verification of the notification-service real-time delivery pipeline.

The development shallowly embeds the JavaScript source:
* event-kind canonicalization of the broker consumer (eventConsumer.js)
  and of the webhook routes (notification routes behind serviceAuth);
* the broker consume callback's ack/nack skeleton;
* the socket service (sendToUser, authenticateSocket, the
  authentication timeout callback, handleDisconnect, getConnectionCount);
* the user-to-connections registry as a transition system;
* the consumer status record (getStatus) over a small event machine.

JavaScript objects holding event payloads are modelled as association
lists of string keys and JSON-ish values; JavaScript `undefined` for an
optional field is `Option.none`; the JS `a || b` default idiom is
modelled including its empty-string falsiness.
-/

namespace NotificationService

/-- A JSON-ish field value: a string, JSON null, or JS `undefined`
(an optional field that was absent upstream). -/
inductive JVal where
  | s (v : String)
  | nul
  | undef
  deriving DecidableEq

/-- A payload object: association list in insertion order, as JS object keys. -/
abbrev Payload := List (String × JVal)

/-- Key lookup in an association list (JS `Map.get` / object access):
first entry with the key wins. -/
def lookupKey {β : Type} : List (String × β) → String → Option β
  | [], _ => none
  | kv :: rest, k => if kv.1 = k then some kv.2 else lookupKey rest k

/-- JS `v || d` for an optional string `v`: `undefined` and the empty
string are falsy and yield the default. -/
def jsOr (v : Option String) (d : String) : String :=
  match v with
  | none => d
  | some x => if x = "" then d else x

/-- JS `v || null` for an optional string: falsy values collapse to null. -/
def jsOrNull (v : Option String) : JVal :=
  match v with
  | none => JVal.nul
  | some x => if x = "" then JVal.nul else JVal.s x

/-- An optional string taken as a raw JS value (`undefined` when absent). -/
def optJVal (v : Option String) : JVal :=
  match v with
  | none => JVal.undef
  | some x => JVal.s x

/-- Rewrite the value stored under an existing key in place (JS `Map.set`
on a present key, or object spread override of a present key). -/
def updateVal {β : Type} (l : List (String × β)) (k : String) (f : β → β) :
    List (String × β) :=
  l.map (fun kv => if kv.1 = k then (k, f kv.2) else kv)

/-- JS object spread override: set key `k` to `v`, replacing it in place
when present and appending it otherwise. -/
def setField (p : Payload) (k : String) (v : JVal) : Payload :=
  match lookupKey p k with
  | some _ => updateVal p k (fun _ => v)
  | none => p ++ [(k, v)]

/-! ## Broker events (eventConsumer.js) -/

/-- The `metadata` sub-object of a broker event. -/
structure Metadata where
  assessmentName : Option String := none
  estimatedProcessingTime : Option String := none
  errorType : Option String := none
  deriving DecidableEq

/-- A decoded broker message body (the Inbound Event shape). -/
structure EventData where
  eventType : String
  userId : String
  jobId : String
  resultId : Option String := none
  errorMessage : Option String := none
  metadata : Option Metadata := none
  deriving DecidableEq

/-- Optional chaining for the assessment name, as in the source's reading of the metadata object. -/
def mdAssessmentName (e : EventData) : Option String :=
  e.metadata.bind Metadata.assessmentName

/-- Optional chaining for the estimated processing time. -/
def mdEstimatedTime (e : EventData) : Option String :=
  e.metadata.bind Metadata.estimatedProcessingTime

/-- Optional chaining for the metadata error type. -/
def mdErrorType (e : EventData) : Option String :=
  e.metadata.bind Metadata.errorType

/-- One requested push: target user, delivery event name, payload. -/
structure Delivery where
  userId : String
  event : String
  payload : Payload
  deriving DecidableEq

/-- Broker handler for `analysis.completed` (handleAnalysisCompleted):
payload is status `completed`, the raw resultId, and the assessment name
defaulted to `Unknown Assessment`. -/
def handleAnalysisCompleted (e : EventData) : Delivery :=
  { userId := e.userId
    event := "analysis-complete"
    payload :=
      [ ("status", JVal.s "completed"),
        ("result_id", optJVal e.resultId),
        ("assessment_name", JVal.s (jsOr (mdAssessmentName e) "Unknown Assessment")) ] }

/-- Broker handler for `analysis.failed` (handleAnalysisFailed): the
delivery event is `analysis-unknown` when the metadata error type marks
an unsupported assessment, else `analysis-failed`; payload is status
`failed`, `resultId || null`, defaulted assessment name, and the raw
error message. -/
def handleAnalysisFailed (e : EventData) : Delivery :=
  { userId := e.userId
    event :=
      if mdErrorType e = some "UNSUPPORTED_ASSESSMENT_TYPE"
      then "analysis-unknown" else "analysis-failed"
    payload :=
      [ ("status", JVal.s "failed"),
        ("result_id", jsOrNull e.resultId),
        ("assessment_name", JVal.s (jsOr (mdAssessmentName e) "Unknown Assessment")),
        ("error_message", optJVal e.errorMessage) ] }

/-- Broker handler for `analysis.started` (handleAnalysisStarted):
payload carries jobId, `resultId || null`, fixed status `processing`,
defaulted assessment name, a fixed message, and the estimated time
defaulted to `1-3 minutes`. -/
def handleAnalysisStarted (e : EventData) : Delivery :=
  { userId := e.userId
    event := "analysis-started"
    payload :=
      [ ("jobId", JVal.s e.jobId),
        ("resultId", jsOrNull e.resultId),
        ("status", JVal.s "processing"),
        ("assessment_name", JVal.s (jsOr (mdAssessmentName e) "Unknown Assessment")),
        ("message", JVal.s "Your analysis has started processing..."),
        ("estimated_time", JVal.s (jsOr (mdEstimatedTime e) "1-3 minutes")) ] }

/-- Dispatch by event type (processEvent): the three recognized kinds
route to their handlers; any other type only logs and requests no
delivery. -/
def processEvent (e : EventData) : List Delivery :=
  if e.eventType = "analysis.completed" then [handleAnalysisCompleted e]
  else if e.eventType = "analysis.failed" then [handleAnalysisFailed e]
  else if e.eventType = "analysis.started" then [handleAnalysisStarted e]
  else []

/-! ## Webhook routes (notification router) -/

/-- Validated body of POST /notifications/analysis-started. The schema
admits no result id field on this route. -/
structure StartedBody where
  userId : String
  jobId : String
  status : String
  assessment_name : String
  message : Option String := none
  deriving DecidableEq

/-- Validated body of POST /notifications/analysis-complete. -/
structure CompleteBody where
  userId : String
  jobId : String
  result_id : String
  status : String
  assessment_name : String
  message : Option String := none
  deriving DecidableEq

/-- Validated body of POST /notifications/analysis-failed and
/analysis-unknown. The route reads `result_id` from the body even
though the schema does not admit it, so it is kept optional here. -/
structure FailedBody where
  userId : String
  jobId : String
  status : String
  assessment_name : String
  error_message : String
  result_id : Option String := none
  deriving DecidableEq

/-- Webhook route for analysis-started: payload is jobId, the body's
status passed through, assessment name, and `message` defaulted to
`Analysis processing started...`. -/
def webhookAnalysisStarted (b : StartedBody) : Delivery :=
  { userId := b.userId
    event := "analysis-started"
    payload :=
      [ ("jobId", JVal.s b.jobId),
        ("status", JVal.s b.status),
        ("assessment_name", JVal.s b.assessment_name),
        ("message", JVal.s (jsOr b.message "Analysis processing started...")) ] }

/-- Webhook route for analysis-complete: status normalized to
`completed`, raw result id and assessment name. -/
def webhookAnalysisComplete (b : CompleteBody) : Delivery :=
  { userId := b.userId
    event := "analysis-complete"
    payload :=
      [ ("status", JVal.s "completed"),
        ("result_id", JVal.s b.result_id),
        ("assessment_name", JVal.s b.assessment_name) ] }

/-- Webhook route for analysis-failed: status normalized to `failed`,
`result_id || null`, assessment name, error message. -/
def webhookAnalysisFailed (b : FailedBody) : Delivery :=
  { userId := b.userId
    event := "analysis-failed"
    payload :=
      [ ("status", JVal.s "failed"),
        ("result_id", jsOrNull b.result_id),
        ("assessment_name", JVal.s b.assessment_name),
        ("error_message", JVal.s b.error_message) ] }

/-- Webhook route for analysis-unknown: same payload shape as failed,
delivered under the distinct `analysis-unknown` event name. -/
def webhookAnalysisUnknown (b : FailedBody) : Delivery :=
  { userId := b.userId
    event := "analysis-unknown"
    payload :=
      [ ("status", JVal.s "failed"),
        ("result_id", jsOrNull b.result_id),
        ("assessment_name", JVal.s b.assessment_name),
        ("error_message", JVal.s b.error_message) ] }

/-! ## Broker consume callback (startConsuming) -/

/-- Terminal action of the consume callback on one message. -/
inductive MsgAction where
  | ack
  | nackNoRequeue
  deriving DecidableEq

/-- Result of running the event processing step for one decoded event:
deliveries requested before any exception, and whether an exception was
raised (propagated out of the handler). -/
structure ProcessOutcome where
  deliveries : List Delivery
  failed : Bool
  deriving DecidableEq

/-- The try/catch skeleton of the consume callback: a body that fails
JSON decoding is nacked without requeue (routed to dead-letter) before
any processing; a decoded event is processed, then acked, unless
processing raised, in which case the message is nacked without requeue.
`decodeResult` is the outcome of `JSON.parse` on the message body and
`process` the processing step. -/
def consumeMessage (decodeResult : Option EventData)
    (process : EventData → ProcessOutcome) : MsgAction × List Delivery :=
  match decodeResult with
  | none => (MsgAction.nackNoRequeue, [])
  | some e =>
    let o := process e
    (if o.failed then MsgAction.nackNoRequeue else MsgAction.ack, o.deliveries)

/-- The concrete processing step: processEvent dispatches and, with the
socket service available, the handlers complete without raising. -/
def processEventOutcome (e : EventData) : ProcessOutcome :=
  { deliveries := processEvent e, failed := false }

/-! ## Socket service: delivery (sendToUser) -/

/-- One transport write: a payload emitted under an event name to one
socket. -/
structure Emission where
  socketId : String
  event : String
  payload : Payload
  deriving DecidableEq

/-- The socket-service state sendToUser reads and writes: the adapter's
room map (room name to member socket ids; an authenticated socket is a
member of its user's `user:` room) and the offline notification
counters. -/
structure SocketState where
  rooms : List (String × List String)
  offlineNotificationCount : List (String × Nat)
  deriving DecidableEq

/-- JS `Map.set`: replace the value in place when the key exists,
append the entry otherwise. -/
def setCount (l : List (String × Nat)) (k : String) (n : Nat) : List (String × Nat) :=
  match lookupKey l k with
  | some _ => updateVal l k (fun _ => n)
  | none => l ++ [(k, n)]

/-- What a sendToUser call produced: the updated state, the boolean
outcome, and the transport writes performed. -/
structure SendResult where
  state : SocketState
  sent : Bool
  emissions : List Emission
  deriving DecidableEq

/-- The members of a user's room (`io.sockets.adapter.rooms.get(room)`
with `?.size || 0` treating a missing room as empty). -/
def roomMembers (st : SocketState) (userId : String) : List String :=
  (lookupKey st.rooms ("user:" ++ userId)).getD []

/-- sendToUser: count the members of room `user:` ++ userId; when
positive, emit the payload extended with a server timestamp to the
room (one write per member), clear the user's offline counter and
return true; otherwise bump the offline counter and return false. -/
def sendToUser (st : SocketState) (userId event : String) (data : Payload)
    (now : String) : SendResult :=
  let members := roomMembers st userId
  if members.length > 0 then
    let out := setField data "timestamp" (JVal.s now)
    { state :=
        { st with
          offlineNotificationCount :=
            st.offlineNotificationCount.filter (fun kv => ¬ kv.1 = userId) }
      sent := true
      emissions := members.map (fun sid => ⟨sid, event, out⟩) }
  else
    let currentCount := ((lookupKey st.offlineNotificationCount userId).getD 0) + 1
    { state :=
        { st with
          offlineNotificationCount :=
            setCount st.offlineNotificationCount userId currentCount }
      sent := false
      emissions := [] }

/-! ## Socket service: authentication gate (authenticateSocket) -/

/-- A signal emitted to one socket during authentication:
`auth_error` with a message, or the `authenticated` confirmation. -/
structure AuthSignal where
  event : String
  message : String
  deriving DecidableEq

/-- Per-socket state: bound user identity, whether the transport was
forcibly closed, the signals emitted so far, and whether anything ever
canceled the authentication timeout scheduled at connection time (the
source calls setTimeout without keeping the handle, so no code path
cancels it). -/
structure Sock where
  id : String
  userId : Option String := none
  userEmail : Option String := none
  disconnected : Bool := false
  emitted : List AuthSignal := []
  authTimerCanceled : Bool := false
  deriving DecidableEq

/-- Outcome of `unifiedAuthService.verifyToken`: a resolved user,
a null resolution (invalid or expired token, or every verifier
unreachable — the service maps unreachable verifiers to null rather
than throwing), or a thrown error. -/
inductive VerifyOutcome where
  | ok (userId : String) (email : String)
  | noUser
  | exn
  deriving DecidableEq

/-- JS `Set.add` on an insertion-ordered set. -/
def addToSet (l : List String) (x : String) : List String :=
  if x ∈ l then l else l ++ [x]

/-- Registry insert (authenticateSocket lines adding to
userConnections): create the entry when the user id is new, else add
the socket id to the existing set. -/
def regRegister (reg : List (String × List String)) (u sid : String) :
    List (String × List String) :=
  match lookupKey reg u with
  | none => reg ++ [(u, [sid])]
  | some _ => updateVal reg u (fun l => addToSet l sid)

/-- State touched by authenticateSocket: the socket and the
user-to-connections registry. -/
structure AuthState where
  sock : Sock
  userConnections : List (String × List String)
  deriving DecidableEq

/-- JS falsiness of the supplied token: absent or the empty string. -/
def tokenMissing (token : Option String) : Bool :=
  match token with
  | none => true
  | some t => t = ""

/-- authenticateSocket: a falsy token emits `Token required` and
returns without disconnecting; a null verification emits `Invalid or
expired token` and disconnects; a thrown verification lands in the
catch block, which emits `Authentication failed` and disconnects; a
resolved user binds the socket, registers it and emits the
`authenticated` confirmation. -/
def authenticateSocket (st : AuthState) (token : Option String)
    (vres : VerifyOutcome) : AuthState :=
  if tokenMissing token then
    { st with sock :=
        { st.sock with emitted := st.sock.emitted ++ [⟨"auth_error", "Token required"⟩] } }
  else
    match vres with
    | VerifyOutcome.noUser =>
      { st with sock :=
          { st.sock with
            emitted := st.sock.emitted ++ [⟨"auth_error", "Invalid or expired token"⟩]
            disconnected := true } }
    | VerifyOutcome.exn =>
      { st with sock :=
          { st.sock with
            emitted := st.sock.emitted ++ [⟨"auth_error", "Authentication failed"⟩]
            disconnected := true } }
    | VerifyOutcome.ok uid email =>
      { sock :=
          { st.sock with
            userId := some uid
            userEmail := some email
            emitted := st.sock.emitted ++ [⟨"authenticated", email⟩] }
        userConnections := regRegister st.userConnections uid st.sock.id }

/-- The authentication-timeout callback scheduled at connection time
(setupSocketHandlers): when it fires on a socket with no bound user it
emits `Authentication timeout` and disconnects; on an authenticated
socket it does nothing. -/
def fireAuthTimeout (s : Sock) : Sock :=
  if s.userId = none then
    { s with
      emitted := s.emitted ++ [⟨"auth_error", "Authentication timeout"⟩]
      disconnected := true }
  else s

/-- The failure signals among a socket's emissions. -/
def failureSignals (s : Sock) : List AuthSignal :=
  s.emitted.filter (fun sig => sig.event = "auth_error")

/-! ## Registry transition system (authenticateSocket insert /
handleDisconnect remove over connection lifecycles) -/

/-- A transport connection as the registry sees it: its socket id, the
user id bound by authentication (if any), and whether it is still
open. -/
structure Conn where
  sid : String
  userId : Option String
  isOpen : Bool
  deriving DecidableEq

/-- Joint state of the live connections and the user-to-connections
registry. -/
structure RegSystem where
  conns : List Conn
  reg : List (String × List String)
  deriving DecidableEq

/-- Remove the first occurrence (JS `Set.delete`; registry sets hold no
duplicates). -/
def eraseOne : List String → String → List String
  | [], _ => []
  | x :: rest, y => if x = y then rest else x :: eraseOne rest y

/-- Registry removal (handleDisconnect): when the user has an entry,
delete the socket id from its set; delete the whole entry when the set
becomes empty. No-op when the user has no entry. -/
def regDeregister (reg : List (String × List String)) (u sid : String) :
    List (String × List String) :=
  match lookupKey reg u with
  | none => reg
  | some l =>
    let l2 := eraseOne l sid
    if l2 = [] then reg.filter (fun kv => ¬ kv.1 = u)
    else updateVal reg u (fun _ => l2)

/-- Find a connection by socket id. -/
def findConn (cs : List Conn) (sid : String) : Option Conn :=
  cs.find? (fun c => c.sid = sid)

/-- Bind a user id on one connection (`socket.userId = user.id`). -/
def setConnUser (cs : List Conn) (sid uid : String) : List Conn :=
  cs.map (fun c => if c.sid = sid then { c with userId := some uid } else c)

/-- Mark a connection closed. -/
def closeConn (cs : List Conn) (sid : String) : List Conn :=
  cs.map (fun c => if c.sid = sid then { c with isOpen := false } else c)

/-- A socket id currently registered under a user id. -/
def sidInReg (reg : List (String × List String)) (u sid : String) : Prop :=
  ∃ l, lookupKey reg u = some l ∧ sid ∈ l

/-- A live connection of a user: open and bound to that user id. -/
def liveConn (cs : List Conn) (sid u : String) : Prop :=
  ∃ c, c ∈ cs ∧ c.sid = sid ∧ c.userId = some u ∧ c.isOpen

/-- Reachable states of the registry system. `connect` is the
transport handshake (fresh socket id); `authOk` is a successful
authenticateSocket run on an open connection (bind the user id, insert
into the registry); `disconnect` is the close event, fired once per
open connection (clear the registry entry when the socket had a bound
user). The source places no guard on re-authentication, so `authOk`
may rebind an already-bound connection to a different user. -/
inductive Reach : RegSystem → Prop where
  | init : Reach ⟨[], []⟩
  | connect (st : RegSystem) (sid : String) :
      Reach st → findConn st.conns sid = none →
      Reach ⟨st.conns ++ [⟨sid, none, true⟩], st.reg⟩
  | authOk (st : RegSystem) (sid uid : String) (c : Conn) :
      Reach st → findConn st.conns sid = some c → c.isOpen = true →
      Reach ⟨setConnUser st.conns sid uid, regRegister st.reg uid sid⟩
  | disconnect (st : RegSystem) (sid : String) (c : Conn) :
      Reach st → findConn st.conns sid = some c → c.isOpen = true →
      Reach ⟨closeConn st.conns sid,
             match c.userId with
             | some u => regDeregister st.reg u sid
             | none => st.reg⟩

/-- Reachable states under the single-identity discipline: as `Reach`,
but a connection only ever authenticates under one user id (repeat
authentications carry the same identity). -/
inductive ReachSU : RegSystem → Prop where
  | init : ReachSU ⟨[], []⟩
  | connect (st : RegSystem) (sid : String) :
      ReachSU st → findConn st.conns sid = none →
      ReachSU ⟨st.conns ++ [⟨sid, none, true⟩], st.reg⟩
  | authOk (st : RegSystem) (sid uid : String) (c : Conn) :
      ReachSU st → findConn st.conns sid = some c → c.isOpen = true →
      (c.userId = none ∨ c.userId = some uid) →
      ReachSU ⟨setConnUser st.conns sid uid, regRegister st.reg uid sid⟩
  | disconnect (st : RegSystem) (sid : String) (c : Conn) :
      ReachSU st → findConn st.conns sid = some c → c.isOpen = true →
      ReachSU ⟨closeConn st.conns sid,
               match c.userId with
               | some u => regDeregister st.reg u sid
               | none => st.reg⟩

/-- Connection statistics (getConnectionCount): total counts open
sockets; authenticated is the size of the userConnections map; users is
the length of the array of its keys. -/
structure ConnCount where
  total : Nat
  authenticated : Nat
  users : Nat
  deriving DecidableEq

/-- getConnectionCount over the registry system state. -/
def getConnectionCount (st : RegSystem) : ConnCount :=
  { total := (st.conns.filter (fun c => c.isOpen)).length
    authenticated := st.reg.length
    users := (st.reg.map Prod.fst).length }

/-! ## Consumer status (eventConsumer getStatus) -/

/-- The record getStatus returns: the consuming flag, `channel !==
null`, and the configured queue and exchange names. -/
structure ConsumerStatus where
  isConsuming : Bool
  isConnected : Bool
  queue : String
  exchange : String
  deriving DecidableEq

/-- Module state of the event consumer (`isConsuming` and `channel`),
together with the ground-truth broker-link state the claims speak
about. -/
structure ConsumerState where
  isConsuming : Bool
  channelSet : Bool
  brokerUp : Bool
  deriving DecidableEq

/-- Events of the consumer lifecycle: a successful initialization
(sets the module channel and brings the link up), startConsuming
(requires an initialized channel; idempotent), a transport-level
connection loss (the rabbitmq close handler only schedules a
reconnect; nothing clears the consumer module's `channel` variable),
and stopConsuming. -/
inductive CEvent where
  | initOk
  | startConsuming
  | connLost
  | stopConsuming
  deriving DecidableEq

/-- One step of the consumer lifecycle. -/
def stepConsumer (s : ConsumerState) (e : CEvent) : ConsumerState :=
  match e with
  | CEvent.initOk => { s with channelSet := true, brokerUp := true }
  | CEvent.startConsuming =>
      if s.channelSet then { s with isConsuming := true } else s
  | CEvent.connLost => { s with brokerUp := false }
  | CEvent.stopConsuming =>
      if s.channelSet ∧ s.isConsuming then { s with isConsuming := false } else s

/-- Run the consumer lifecycle from the module's initial state. -/
def runConsumer (es : List CEvent) : ConsumerState :=
  es.foldl stepConsumer ⟨false, false, false⟩

/-- getStatus: reads the module flags; `isConnected` is literally
`channel !== null`. -/
def getStatus (s : ConsumerState) : ConsumerStatus :=
  { isConsuming := s.isConsuming
    isConnected := s.channelSet
    queue := "analysis_events_notifications"
    exchange := "atma_events_exchange" }

/-- The registry invariant carried through the induction for the
single-identity reachable states: socket ids are unique among
connections, registered sets are non-empty and duplicate-free, and a
socket id is registered under a user id exactly when it is a live
connection of that user. -/
def RegInv (st : RegSystem) : Prop :=
  (st.conns.map Conn.sid).Nodup ∧
  (∀ u l, lookupKey st.reg u = some l → l ≠ [] ∧ l.Nodup) ∧
  (∀ u sid, sidInReg st.reg u sid ↔ liveConn st.conns sid u)

/-! ## Association-list lemmas -/

theorem lookupKey_eq_none_iff {β : Type} (l : List (String × β)) (k : String) :
    lookupKey l k = none ↔ k ∉ l.map Prod.fst := by
  induction l with
  | nil => simp [lookupKey]
  | cons kv rest ih =>
    by_cases h : kv.1 = k
    · simp [lookupKey, h]
    · simp [lookupKey, h, ih, Ne.symm h]

theorem lookupKey_append_of_none {β : Type} (l1 l2 : List (String × β)) (k : String)
    (h : lookupKey l1 k = none) : lookupKey (l1 ++ l2) k = lookupKey l2 k := by
  induction l1 with
  | nil => rfl
  | cons kv rest ih =>
    rw [List.cons_append]
    by_cases hk : kv.1 = k
    · simp [lookupKey, hk] at h
    · simp only [lookupKey, hk, if_false] at h ⊢
      exact ih h

theorem lookupKey_append_of_some {β : Type} {l1 : List (String × β)} (l2 : List (String × β))
    {k : String} {v : β} (h : lookupKey l1 k = some v) :
    lookupKey (l1 ++ l2) k = some v := by
  induction l1 with
  | nil => simp [lookupKey] at h
  | cons kv rest ih =>
    rw [List.cons_append]
    by_cases hk : kv.1 = k
    · simp only [lookupKey, hk, if_true] at h ⊢
      exact h
    · simp only [lookupKey, hk, if_false] at h ⊢
      exact ih h

theorem lookupKey_updateVal_self {β : Type} (l : List (String × β)) (k : String) (f : β → β) :
    lookupKey (updateVal l k f) k = (lookupKey l k).map f := by
  induction l with
  | nil => rfl
  | cons kv rest ih =>
    by_cases hk : kv.1 = k
    · simp [updateVal, lookupKey, hk]
    · simp only [updateVal, List.map_cons, hk, if_false] at ih ⊢
      simp only [lookupKey, hk, if_false]
      exact ih

theorem lookupKey_updateVal_ne {β : Type} (l : List (String × β)) (k : String) (f : β → β)
    {k' : String} (h : ¬ k' = k) :
    lookupKey (updateVal l k f) k' = lookupKey l k' := by
  induction l with
  | nil => rfl
  | cons kv rest ih =>
    by_cases hk : kv.1 = k
    · have h2 : ¬ k = k' := fun hh => h hh.symm
      simp only [updateVal, List.map_cons, hk, if_true] at ih ⊢
      simp only [lookupKey, h2, if_false, hk]
      exact ih
    · simp only [updateVal, List.map_cons, hk, if_false] at ih ⊢
      by_cases hk2 : kv.1 = k'
      · simp [lookupKey, hk2]
      · simp only [lookupKey, hk2, if_false]
        exact ih

theorem keys_updateVal {β : Type} (l : List (String × β)) (k : String) (f : β → β) :
    (updateVal l k f).map Prod.fst = l.map Prod.fst := by
  induction l with
  | nil => rfl
  | cons kv rest ih =>
    by_cases hk : kv.1 = k
    · simp [updateVal, hk] at ih ⊢
      exact ih
    · simp [updateVal, hk] at ih ⊢
      exact ih

theorem length_updateVal {β : Type} (l : List (String × β)) (k : String) (f : β → β) :
    (updateVal l k f).length = l.length := by
  simp [updateVal]

theorem lookupKey_filter_self {β : Type} (l : List (String × β)) (k : String) :
    lookupKey (l.filter fun kv => ¬ kv.1 = k) k = none := by
  induction l with
  | nil => rfl
  | cons kv rest ih =>
    simp only [decide_not] at ih ⊢
    by_cases hk : kv.1 = k
    · simp [List.filter_cons, hk, ih]
    · simp [List.filter_cons, hk, lookupKey, ih]

theorem lookupKey_filter_ne {β : Type} (l : List (String × β)) (k : String)
    {k' : String} (h : ¬ k' = k) :
    lookupKey (l.filter fun kv => ¬ kv.1 = k) k' = lookupKey l k' := by
  induction l with
  | nil => rfl
  | cons kv rest ih =>
    simp only [decide_not] at ih ⊢
    by_cases hk : kv.1 = k
    · have h4 : ¬ k = k' := fun hh => h hh.symm
      simp [List.filter_cons, hk, lookupKey, h4, ih]
    · by_cases hk2 : kv.1 = k'
      · simp [List.filter_cons, hk, lookupKey, hk2, h]
      · simp [List.filter_cons, hk, lookupKey, hk2, ih]

theorem lookupKey_setField (p : Payload) (k : String) (v : JVal) :
    lookupKey (setField p k v) k = some v := by
  unfold setField
  cases h : lookupKey p k with
  | none =>
    rw [lookupKey_append_of_none _ _ _ h]
    simp [lookupKey]
  | some w =>
    rw [lookupKey_updateVal_self, h]
    rfl

/-! ## Claim theorems -/

/-- Claim C2: sendToUser returns true exactly when the user's room of
live authenticated connections is non-empty at call time, and on an
empty room it returns false (a normal outcome, no transport write and
no error). -/
theorem sendToUser_true_iff_room_nonempty (st : SocketState) (u e : String)
    (d : Payload) (t : String) :
    ((sendToUser st u e d t).sent = true ↔ roomMembers st u ≠ []) ∧
    (roomMembers st u = [] →
      (sendToUser st u e d t).sent = false ∧ (sendToUser st u e d t).emissions = []) := by
  cases h : roomMembers st u with
  | nil => simp [sendToUser, h]
  | cons a rest => simp [sendToUser, h]

/-- Witness for C2 at a one-connection state. -/
theorem sendToUser_true_iff_room_nonempty_witness :
    (sendToUser ⟨[("user:u1", ["s1"])], []⟩ "u1" "analysis-complete" [] "T0").sent = true :=
  (sendToUser_true_iff_room_nonempty ⟨[("user:u1", ["s1"])], []⟩ "u1"
    "analysis-complete" [] "T0").1.mpr (by decide)

theorem filter_map_socketId_count (members : List String) (e : String) (p : Payload)
    (hnd : members.Nodup) (sid : String) (hm : sid ∈ members) :
    ((members.map (fun s => (⟨s, e, p⟩ : Emission))).filter
        (fun em => em.socketId = sid)).length = 1 := by
  induction members with
  | nil => cases hm
  | cons a rest ih =>
    rcases List.nodup_cons.mp hnd with ⟨ha, hrest⟩
    rcases List.mem_cons.mp hm with h1 | h2
    · subst h1
      have hz : ((rest.map (fun s => (⟨s, e, p⟩ : Emission))).filter
          (fun em => em.socketId = sid)) = [] := by
        rw [List.filter_eq_nil_iff]
        intro em hem
        rcases List.mem_map.mp hem with ⟨s, hs, rfl⟩
        simp only [decide_eq_true_eq]
        rintro rfl
        exact ha hs
      simp [List.filter_cons, hz]
    · have hne : ¬ a = sid := by rintro rfl; exact ha h2
      simp only [List.map_cons, List.filter_cons, hne, decide_eq_true_eq, if_false]
      exact ih hrest h2

/-- Claim C3: with at least one live connection in the user's room,
sendToUser writes to every member, each write carries the caller's
payload extended with the server-assigned timestamp (the timestamp is
always present in the emitted payload), the call returns true, and
each member receives exactly one write. -/
theorem sendToUser_fanout (st : SocketState) (u e : String) (d : Payload) (t : String)
    (h : roomMembers st u ≠ []) :
    (sendToUser st u e d t).sent = true ∧
    (sendToUser st u e d t).emissions
      = (roomMembers st u).map (fun sid => ⟨sid, e, setField d "timestamp" (JVal.s t)⟩) ∧
    (∀ em ∈ (sendToUser st u e d t).emissions,
      em.payload = setField d "timestamp" (JVal.s t) ∧
      lookupKey em.payload "timestamp" = some (JVal.s t)) ∧
    ((roomMembers st u).Nodup → ∀ sid ∈ roomMembers st u,
      ((sendToUser st u e d t).emissions.filter
          (fun em => em.socketId = sid)).length = 1) := by
  have hlen : (roomMembers st u).length > 0 := List.length_pos.mpr h
  have hsend : sendToUser st u e d t =
      { state :=
          { st with
            offlineNotificationCount :=
              st.offlineNotificationCount.filter (fun kv => ¬ kv.1 = u) }
        sent := true
        emissions := (roomMembers st u).map
          (fun sid => ⟨sid, e, setField d "timestamp" (JVal.s t)⟩) } := by
    simp only [sendToUser]
    rw [if_pos hlen]
  refine ⟨by rw [hsend], by rw [hsend], ?_, ?_⟩
  · intro em hem
    rw [hsend] at hem
    rcases List.mem_map.mp hem with ⟨s, _, rfl⟩
    exact ⟨rfl, lookupKey_setField d "timestamp" (JVal.s t)⟩
  · intro hnd sid hsid
    rw [hsend]
    exact filter_map_socketId_count (roomMembers st u) e
      (setField d "timestamp" (JVal.s t)) hnd sid hsid

/-- Witness for C3: a user with two connections, each receiving
exactly one write. -/
theorem sendToUser_fanout_witness :
    ((sendToUser ⟨[("user:u1", ["s1", "s2"])], []⟩ "u1" "analysis-complete"
        [("status", JVal.s "completed")] "T0").emissions.filter
        (fun em => em.socketId = "s1")).length = 1 :=
  (sendToUser_fanout ⟨[("user:u1", ["s1", "s2"])], []⟩ "u1" "analysis-complete"
      [("status", JVal.s "completed")] "T0" (by decide)).2.2.2 (by decide) "s1" (by decide)

/-- Claim C7: an undecodable message body is nacked without requeue
(dead-letter) before any delivery is attempted; a processing exception
leads to nack without requeue; successful handling leads to ack. -/
theorem consume_ack_discipline (process : EventData → ProcessOutcome) (e : EventData) :
    consumeMessage none process = (MsgAction.nackNoRequeue, []) ∧
    ((process e).failed = true →
      (consumeMessage (some e) process).1 = MsgAction.nackNoRequeue) ∧
    ((process e).failed = false →
      (consumeMessage (some e) process).1 = MsgAction.ack) := by
  refine ⟨rfl, ?_, ?_⟩ <;> intro h <;> simp [consumeMessage, h]

/-- Witness for C7: a completed event processed without exception is
acked. -/
theorem consume_ack_discipline_witness :
    (consumeMessage (some ⟨"analysis.completed", "u", "j", none, none, none⟩)
        processEventOutcome).1 = MsgAction.ack :=
  (consume_ack_discipline processEventOutcome
    ⟨"analysis.completed", "u", "j", none, none, none⟩).2.2 rfl

/-- Claim C9: a decoded event whose eventType is outside the
recognized enumeration is processed by the default branch (log only),
so the message is acked and no delivery is attempted. -/
theorem unknown_type_acked_without_delivery (e : EventData)
    (h1 : ¬ e.eventType = "analysis.completed")
    (h2 : ¬ e.eventType = "analysis.failed")
    (h3 : ¬ e.eventType = "analysis.started") :
    consumeMessage (some e) processEventOutcome = (MsgAction.ack, []) := by
  simp [consumeMessage, processEventOutcome, processEvent, h1, h2, h3]

/-- Witness for C9 at a concrete unrecognized event type. -/
theorem unknown_type_acked_without_delivery_witness :
    consumeMessage (some ⟨"analysis.cancelled", "u", "j", none, none, none⟩)
      processEventOutcome = (MsgAction.ack, []) :=
  unknown_type_acked_without_delivery
    ⟨"analysis.cancelled", "u", "j", none, none, none⟩
    (by decide) (by decide) (by decide)

theorem channelSet_foldl (s : ConsumerState) (es : List CEvent) :
    (es.foldl stepConsumer s).channelSet = true ↔
      s.channelSet = true ∨ CEvent.initOk ∈ es := by
  induction es generalizing s with
  | nil => simp
  | cons e rest ih =>
    cases e with
    | initOk => simp [stepConsumer, ih]
    | startConsuming =>
      by_cases hc : s.channelSet <;> simp [stepConsumer, hc, ih]
    | connLost => simp [stepConsumer, ih]
    | stopConsuming =>
      by_cases hc : s.channelSet ∧ s.isConsuming <;> simp [stepConsumer, hc, ih]

theorem isConsuming_foldl (s : ConsumerState) (es : List CEvent) :
    (es.foldl stepConsumer s).isConsuming = true →
      s.isConsuming = true ∨ s.channelSet = true ∨ CEvent.initOk ∈ es := by
  induction es generalizing s with
  | nil => exact fun h => Or.inl h
  | cons e rest ih =>
    intro hfold
    cases e with
    | initOk => simp
    | startConsuming =>
      by_cases hc : s.channelSet
      · exact Or.inr (Or.inl hc)
      · simp only [List.foldl_cons, stepConsumer, hc, if_false] at hfold
        rcases ih s hfold with h1 | h2 | h3
        · exact Or.inl h1
        · exact Or.inr (Or.inl h2)
        · exact Or.inr (Or.inr (List.mem_cons_of_mem _ h3))
    | connLost =>
      simp only [List.foldl_cons, stepConsumer] at hfold
      rcases ih { s with brokerUp := false } hfold with h1 | h2 | h3
      · exact Or.inl h1
      · exact Or.inr (Or.inl h2)
      · exact Or.inr (Or.inr (List.mem_cons_of_mem _ h3))
    | stopConsuming =>
      by_cases hc : s.channelSet ∧ s.isConsuming
      · exact Or.inl hc.2
      · simp only [List.foldl_cons, stepConsumer, hc, if_false] at hfold
        rcases ih s hfold with h1 | h2 | h3
        · exact Or.inl h1
        · exact Or.inr (Or.inl h2)
        · exact Or.inr (Or.inr (List.mem_cons_of_mem _ h3))

/-- Claim C8 (amended): getStatus returns the four-field record
isConsuming / isConnected / queue / exchange; isConnected is `channel
!== null`, which is true exactly when an initialization has succeeded
in the run — it does not track the live broker link, so it stays true
after a connection loss; and the consuming flag can only be set after
a successful initialization. -/
theorem getStatus_fields_reflect_init (es : List CEvent) :
    ((getStatus (runConsumer es)).isConnected = true ↔ CEvent.initOk ∈ es) ∧
    ((getStatus (runConsumer es)).isConsuming = true → CEvent.initOk ∈ es) ∧
    (getStatus (runConsumer es)).queue = "analysis_events_notifications" ∧
    (getStatus (runConsumer es)).exchange = "atma_events_exchange" := by
  refine ⟨?_, ?_, rfl, rfl⟩
  · simpa [getStatus, runConsumer] using channelSet_foldl ⟨false, false, false⟩ es
  · intro h
    have := isConsuming_foldl ⟨false, false, false⟩ es (by simpa [getStatus, runConsumer] using h)
    simpa using this

/-- Witness for amended C8 after init, consume start and a connection
loss. -/
theorem getStatus_fields_reflect_init_witness :
    (getStatus (runConsumer [CEvent.initOk, CEvent.startConsuming, CEvent.connLost])).isConnected = true :=
  (getStatus_fields_reflect_init
    [CEvent.initOk, CEvent.startConsuming, CEvent.connLost]).1.mpr (by decide)

/-- Counterexample to C8 as stated: after a connection loss the broker
link is down, yet getStatus still reports isConnected = true (the
consumer module never clears its channel variable), and the record
carries queue and exchange fields beyond the claimed pair. -/
theorem getStatus_connected_stale_after_loss :
    (getStatus (runConsumer [CEvent.initOk, CEvent.startConsuming, CEvent.connLost])).isConnected = true ∧
    (runConsumer [CEvent.initOk, CEvent.startConsuming, CEvent.connLost]).brokerUp = false ∧
    (getStatus (runConsumer [CEvent.initOk, CEvent.startConsuming, CEvent.connLost])).queue
      = "analysis_events_notifications" := by
  decide

/-- Counterexample to C5 as stated: successful authentication does not
cancel the authentication timeout — the source keeps no handle to the
timer and never calls clearTimeout — so the timer is still pending
after success. -/
theorem auth_timer_not_canceled_on_success :
    (authenticateSocket ⟨⟨"s1", none, none, false, [], false⟩, []⟩ (some "tok")
        (VerifyOutcome.ok "u1" "u1@example.com")).sock.userId = some "u1" ∧
    (authenticateSocket ⟨⟨"s1", none, none, false, [], false⟩, []⟩ (some "tok")
        (VerifyOutcome.ok "u1" "u1@example.com")).sock.authTimerCanceled = false := by
  decide

/-- Claim C5 (amended): when the timeout fires on a connection that is
not authenticated, the connection is closed and exactly one timeout
failure signal is emitted; the timer is never canceled, but when it
fires on an authenticated connection it does nothing (the dangling
timer cannot act on the connection). -/
theorem auth_timeout_exactly_one_signal (s : Sock) :
    (s.userId = none →
      fireAuthTimeout s =
        { s with emitted := s.emitted ++ [⟨"auth_error", "Authentication timeout"⟩],
                 disconnected := true } ∧
      (failureSignals (fireAuthTimeout s)).length = (failureSignals s).length + 1 ∧
      (fireAuthTimeout s).disconnected = true) ∧
    (¬ s.userId = none → fireAuthTimeout s = s) := by
  constructor
  · intro h
    refine ⟨by simp [fireAuthTimeout, h], ?_, by simp [fireAuthTimeout, h]⟩
    simp [fireAuthTimeout, h, failureSignals, List.filter_append]
  · intro h
    simp [fireAuthTimeout, h]

/-- Witness for amended C5: the timeout on a fresh unauthenticated
socket emits exactly one failure signal. -/
theorem auth_timeout_exactly_one_signal_witness :
    (failureSignals (fireAuthTimeout ⟨"s1", none, none, false, [], false⟩)).length = 1 := by
  have h := (auth_timeout_exactly_one_signal ⟨"s1", none, none, false, [], false⟩).1 rfl
  simpa using h.2.1

/-- Counterexample to C4 as stated: a missing credential emits the
failure signal but does not close the connection — the missing-token
branch returns without calling disconnect. -/
theorem missing_token_leaves_connection_open :
    (authenticateSocket ⟨⟨"s1", none, none, false, [], false⟩, []⟩ none
        VerifyOutcome.noUser).sock.disconnected = false ∧
    (failureSignals (authenticateSocket ⟨⟨"s1", none, none, false, [], false⟩, []⟩ none
        VerifyOutcome.noUser).sock).length = 1 ∧
    (authenticateSocket ⟨⟨"s1", none, none, false, [], false⟩, []⟩ none
        VerifyOutcome.noUser).userConnections = [] := by
  decide

/-- Claim C4 (amended): every failed authentication attempt emits
exactly one failure signal, whose message discriminates a missing
credential from a null verification (invalid, expired, or verifier
unreachable — these share one message) from a verifier exception; the
registry is never touched on failure; the connection is forcibly
closed in every failure case except the missing-credential branch,
which returns leaving the connection open. -/
theorem auth_failure_signal_and_close (st : AuthState) (token : Option String)
    (vres : VerifyOutcome)
    (hfail : tokenMissing token = true ∨ vres = VerifyOutcome.noUser ∨ vres = VerifyOutcome.exn) :
    (authenticateSocket st token vres).userConnections = st.userConnections ∧
    (failureSignals (authenticateSocket st token vres).sock).length
      = (failureSignals st.sock).length + 1 ∧
    (tokenMissing token = true →
      (authenticateSocket st token vres).sock.emitted
        = st.sock.emitted ++ [⟨"auth_error", "Token required"⟩] ∧
      (authenticateSocket st token vres).sock.disconnected = st.sock.disconnected) ∧
    (tokenMissing token = false →
      (authenticateSocket st token vres).sock.disconnected = true ∧
      (vres = VerifyOutcome.noUser →
        (authenticateSocket st token vres).sock.emitted
          = st.sock.emitted ++ [⟨"auth_error", "Invalid or expired token"⟩]) ∧
      (vres = VerifyOutcome.exn →
        (authenticateSocket st token vres).sock.emitted
          = st.sock.emitted ++ [⟨"auth_error", "Authentication failed"⟩])) := by
  by_cases hm : tokenMissing token = true
  · refine ⟨by simp [authenticateSocket, hm], ?_, ?_, by simp [hm]⟩
    · simp [authenticateSocket, hm, failureSignals, List.filter_append]
    · intro _
      exact ⟨by simp [authenticateSocket, hm], by simp [authenticateSocket, hm]⟩
  · have hv : vres = VerifyOutcome.noUser ∨ vres = VerifyOutcome.exn := by
      rcases hfail with h1 | h2 | h3
      · exact absurd h1 hm
      · exact Or.inl h2
      · exact Or.inr h3
    have hm2 : tokenMissing token = false := by
      cases h : tokenMissing token
      · rfl
      · exact absurd h hm
    rcases hv with rfl | rfl
    · refine ⟨by simp [authenticateSocket, hm2], ?_, fun h => absurd h hm, ?_⟩
      · simp [authenticateSocket, hm2, failureSignals, List.filter_append]
      · intro _
        refine ⟨by simp [authenticateSocket, hm2], fun _ => by simp [authenticateSocket, hm2], ?_⟩
        intro hcontra
        cases hcontra
    · refine ⟨by simp [authenticateSocket, hm2], ?_, fun h => absurd h hm, ?_⟩
      · simp [authenticateSocket, hm2, failureSignals, List.filter_append]
      · intro _
        refine ⟨by simp [authenticateSocket, hm2], ?_, fun _ => by simp [authenticateSocket, hm2]⟩
        intro hcontra
        cases hcontra

/-- Witness for amended C4: a null verification on a fresh socket
yields exactly one failure signal, an untouched registry, and a closed
connection. -/
theorem auth_failure_signal_and_close_witness :
    (authenticateSocket ⟨⟨"s1", none, none, false, [], false⟩, []⟩ (some "badtok")
        VerifyOutcome.noUser).sock.disconnected = true := by
  have h := auth_failure_signal_and_close ⟨⟨"s1", none, none, false, [], false⟩, []⟩
    (some "badtok") VerifyOutcome.noUser (Or.inr (Or.inl rfl))
  exact (h.2.2.2 (by decide)).1

/-- Counterexample to C1 as stated: for a started event with
equivalent input fields on the two paths, the canonical payloads
differ — the webhook payload has no resultId and no estimated_time
key, and the two default messages differ. -/
theorem started_payload_differs_across_paths :
    webhookAnalysisStarted ⟨"u", "j", "processing", "Big Five", none⟩
      ≠ handleAnalysisStarted
          ⟨"analysis.started", "u", "j", some "r", none,
            some ⟨some "Big Five", some "2 minutes", none⟩⟩ ∧
    lookupKey (webhookAnalysisStarted ⟨"u", "j", "processing", "Big Five", none⟩).payload
        "estimated_time" = none ∧
    lookupKey (handleAnalysisStarted
          ⟨"analysis.started", "u", "j", some "r", none,
            some ⟨some "Big Five", some "2 minutes", none⟩⟩).payload
        "estimated_time" = some (JVal.s "2 minutes") ∧
    lookupKey (webhookAnalysisStarted ⟨"u", "j", "processing", "Big Five", none⟩).payload
        "resultId" = none ∧
    lookupKey (handleAnalysisStarted
          ⟨"analysis.started", "u", "j", some "r", none,
            some ⟨some "Big Five", some "2 minutes", none⟩⟩).payload
        "resultId" = some (JVal.s "r") ∧
    lookupKey (webhookAnalysisStarted ⟨"u", "j", "processing", "Big Five", none⟩).payload
        "message" = some (JVal.s "Analysis processing started...") ∧
    lookupKey (handleAnalysisStarted
          ⟨"analysis.started", "u", "j", some "r", none,
            some ⟨some "Big Five", some "2 minutes", none⟩⟩).payload
        "message" = some (JVal.s "Your analysis has started processing...") := by
  decide

/-- Claim C1 (amended): for completed, failed and unknown-type events
the two ingestion paths produce identical deliveries (same target
user, same event name, same canonical payload) from equivalent input
fields, with the assessment name present and non-empty; the started
paths differ (see the counterexample). -/
theorem canonical_payloads_agree_outside_started :
    (∀ (e : EventData) (b : CompleteBody),
      b.userId = e.userId → e.resultId = some b.result_id →
      mdAssessmentName e = some b.assessment_name → ¬ b.assessment_name = "" →
      webhookAnalysisComplete b = handleAnalysisCompleted e) ∧
    (∀ (e : EventData) (b : FailedBody),
      b.userId = e.userId → b.result_id = e.resultId →
      mdAssessmentName e = some b.assessment_name → ¬ b.assessment_name = "" →
      e.errorMessage = some b.error_message →
      ¬ mdErrorType e = some "UNSUPPORTED_ASSESSMENT_TYPE" →
      webhookAnalysisFailed b = handleAnalysisFailed e) ∧
    (∀ (e : EventData) (b : FailedBody),
      b.userId = e.userId → b.result_id = e.resultId →
      mdAssessmentName e = some b.assessment_name → ¬ b.assessment_name = "" →
      e.errorMessage = some b.error_message →
      mdErrorType e = some "UNSUPPORTED_ASSESSMENT_TYPE" →
      webhookAnalysisUnknown b = handleAnalysisFailed e) := by
  refine ⟨?_, ?_, ?_⟩
  · intro e b hu hr ha hne
    simp [webhookAnalysisComplete, handleAnalysisCompleted, hu, hr, ha, jsOr, optJVal, hne]
  · intro e b hu hr ha hne herr htype
    simp [webhookAnalysisFailed, handleAnalysisFailed, hu, hr, ha, jsOr, optJVal,
      hne, herr, htype]
  · intro e b hu hr ha hne herr htype
    simp [webhookAnalysisUnknown, handleAnalysisFailed, hu, hr, ha, jsOr, optJVal,
      hne, herr, htype]

/-- Witness for amended C1 at concrete equivalent completed inputs. -/
theorem canonical_payloads_agree_outside_started_witness :
    webhookAnalysisComplete ⟨"u", "j", "r1", "berhasil", "Big Five", none⟩
      = handleAnalysisCompleted
          ⟨"analysis.completed", "u", "j", some "r1", none,
            some ⟨some "Big Five", none, none⟩⟩ :=
  (canonical_payloads_agree_outside_started).1
    ⟨"analysis.completed", "u", "j", some "r1", none, some ⟨some "Big Five", none, none⟩⟩
    ⟨"u", "j", "r1", "berhasil", "Big Five", none⟩
    rfl rfl rfl (by decide)

theorem mem_addToSet (l : List String) (x y : String) :
    y ∈ addToSet l x ↔ y ∈ l ∨ y = x := by
  unfold addToSet
  by_cases h : x ∈ l
  · simp only [h, if_true]
    constructor
    · exact Or.inl
    · rintro (hy | rfl)
      · exact hy
      · exact h
  · simp [h]

theorem addToSet_ne_nil (l : List String) (x : String) : addToSet l x ≠ [] := by
  unfold addToSet
  by_cases h : x ∈ l
  · simp only [h, if_true]
    intro hnil
    rw [hnil] at h
    cases h
  · simp [h]

theorem nodup_addToSet (l : List String) (x : String) (h : l.Nodup) :
    (addToSet l x).Nodup := by
  unfold addToSet
  by_cases hx : x ∈ l
  · simp [hx, h]
  · simp [List.nodup_append, hx, h]

theorem mem_eraseOne_of_ne (l : List String) (x y : String) (h : ¬ y = x) :
    y ∈ eraseOne l x ↔ y ∈ l := by
  induction l with
  | nil => simp [eraseOne]
  | cons a rest ih =>
    by_cases ha : a = x
    · simp [eraseOne, ha, h, ih]
    · simp [eraseOne, ha, ih]

theorem not_mem_eraseOne_self (l : List String) (x : String) (h : l.Nodup) :
    x ∉ eraseOne l x := by
  induction l with
  | nil => simp [eraseOne]
  | cons a rest ih =>
    rcases List.nodup_cons.mp h with ⟨ha, hrest⟩
    by_cases hax : a = x
    · simp only [eraseOne, hax, if_true]
      rw [hax] at ha
      exact ha
    · simp only [eraseOne, hax, if_false]
      intro hmem
      rcases List.mem_cons.mp hmem with h1 | h2
      · exact hax h1.symm
      · exact ih hrest h2

theorem nodup_eraseOne (l : List String) (x : String) (h : l.Nodup) :
    (eraseOne l x).Nodup := by
  induction l with
  | nil => simp [eraseOne]
  | cons a rest ih =>
    rcases List.nodup_cons.mp h with ⟨ha, hrest⟩
    by_cases hax : a = x
    · simpa [eraseOne, hax] using hrest
    · simp only [eraseOne, hax, if_false]
      refine List.nodup_cons.mpr ⟨?_, ih hrest⟩
      intro hmem
      by_cases hay : a = x
      · exact hax hay
      · exact ha ((mem_eraseOne_of_ne rest x a hax).mp hmem)

theorem eraseOne_of_not_mem (l : List String) (x : String) (h : x ∉ l) :
    eraseOne l x = l := by
  induction l with
  | nil => rfl
  | cons a rest ih =>
    have hax : ¬ a = x := by
      intro he
      exact h (by simp [he])
    simp [eraseOne, hax, ih (fun hm => h (List.mem_cons_of_mem a hm))]

theorem findConn_eq_none_iff (cs : List Conn) (sid : String) :
    findConn cs sid = none ↔ ∀ c ∈ cs, ¬ c.sid = sid := by
  simp [findConn, List.find?_eq_none]

theorem findConn_some_mem {cs : List Conn} {sid : String} {c : Conn}
    (h : findConn cs sid = some c) : c ∈ cs ∧ c.sid = sid := by
  refine ⟨List.mem_of_find?_eq_some h, ?_⟩
  have := List.find?_some h
  simpa using this

theorem liveConn_map_iff (cs : List Conn) (g : Conn → Conn)
    (hsid : ∀ c, (g c).sid = c.sid) (s u : String) :
    liveConn (cs.map g) s u ↔
      ∃ c, c ∈ cs ∧ c.sid = s ∧ (g c).userId = some u ∧ (g c).isOpen = true := by
  unfold liveConn
  constructor
  · rintro ⟨c', hc', hs, hu, ho⟩
    rcases List.mem_map.mp hc' with ⟨c0, hc0, rfl⟩
    exact ⟨c0, hc0, by rw [← hsid c0]; exact hs, hu, ho⟩
  · rintro ⟨c0, hc0, hs, hu, ho⟩
    exact ⟨g c0, List.mem_map_of_mem g hc0, by rw [hsid c0]; exact hs, hu, ho⟩

theorem liveConn_setConnUser_ne (cs : List Conn) (sid uid s u : String) (hs : ¬ s = sid) :
    liveConn (setConnUser cs sid uid) s u ↔ liveConn cs s u := by
  unfold setConnUser
  rw [liveConn_map_iff]
  · constructor
    · rintro ⟨c, hc, hcs, hu, ho⟩
      have hne : ¬ c.sid = sid := by rw [hcs]; exact hs
      rw [if_neg hne] at hu ho
      exact ⟨c, hc, hcs, hu, ho⟩
    · rintro ⟨c, hc, hcs, hu, ho⟩
      have hne : ¬ c.sid = sid := by rw [hcs]; exact hs
      exact ⟨c, hc, hcs, by rw [if_neg hne]; exact hu, by rw [if_neg hne]; exact ho⟩
  · intro c
    by_cases hc : c.sid = sid
    · rw [if_pos hc]
    · rw [if_neg hc]

theorem liveConn_setConnUser_self (cs : List Conn) (sid uid u : String)
    (c : Conn) (hfind : findConn cs sid = some c) (hopen : c.isOpen = true) :
    (liveConn (setConnUser cs sid uid) sid u ↔ u = uid) := by
  unfold setConnUser
  rw [liveConn_map_iff]
  · constructor
    · rintro ⟨c0, _, hcs, hu, _⟩
      rw [if_pos hcs] at hu
      simpa using hu.symm
    · rintro rfl
      rcases findConn_some_mem hfind with ⟨hcmem, hcsid⟩
      refine ⟨c, hcmem, hcsid, ?_, ?_⟩
      · rw [if_pos hcsid]
      · rw [if_pos hcsid]
        exact hopen
  · intro c0
    by_cases hc : c0.sid = sid
    · rw [if_pos hc]
    · rw [if_neg hc]

theorem liveConn_closeConn_ne (cs : List Conn) (sid s u : String) (hs : ¬ s = sid) :
    liveConn (closeConn cs sid) s u ↔ liveConn cs s u := by
  unfold closeConn
  rw [liveConn_map_iff]
  · constructor
    · rintro ⟨c, hc, hcs, hu, ho⟩
      have hne : ¬ c.sid = sid := by rw [hcs]; exact hs
      rw [if_neg hne] at hu ho
      exact ⟨c, hc, hcs, hu, ho⟩
    · rintro ⟨c, hc, hcs, hu, ho⟩
      have hne : ¬ c.sid = sid := by rw [hcs]; exact hs
      exact ⟨c, hc, hcs, by rw [if_neg hne]; exact hu, by rw [if_neg hne]; exact ho⟩
  · intro c
    by_cases hc : c.sid = sid
    · rw [if_pos hc]
    · rw [if_neg hc]

theorem not_liveConn_closeConn_self (cs : List Conn) (sid u : String) :
    ¬ liveConn (closeConn cs sid) sid u := by
  unfold closeConn
  rw [liveConn_map_iff]
  · rintro ⟨c0, _, hcs, _, ho⟩
    rw [if_pos hcs] at ho
    simp at ho
  · intro c
    by_cases hc : c.sid = sid
    · rw [if_pos hc]
    · rw [if_neg hc]

theorem liveConn_unique (cs : List Conn) (hnd : (cs.map Conn.sid).Nodup)
    {sid : String} {c : Conn} (hfind : findConn cs sid = some c)
    {u : String} (hlive : liveConn cs sid u) :
    c.userId = some u ∧ c.isOpen = true := by
  rcases hlive with ⟨c', hc', hs, hu, ho⟩
  rcases findConn_some_mem hfind with ⟨hcmem, hcsid⟩
  have hEq : c' = c :=
    List.inj_on_of_nodup_map hnd hc' hcmem (by rw [hs, hcsid])
  rw [hEq] at hu ho
  exact ⟨hu, ho⟩

theorem sids_setConnUser (cs : List Conn) (sid uid : String) :
    (setConnUser cs sid uid).map Conn.sid = cs.map Conn.sid := by
  induction cs with
  | nil => rfl
  | cons c rest ih =>
    by_cases h : c.sid = sid
    · simp only [setConnUser, List.map_cons] at ih ⊢
      rw [if_pos h]
      simp [h, ih]
    · simp only [setConnUser, List.map_cons] at ih ⊢
      rw [if_neg h]
      simp [ih]

theorem sids_closeConn (cs : List Conn) (sid : String) :
    (closeConn cs sid).map Conn.sid = cs.map Conn.sid := by
  induction cs with
  | nil => rfl
  | cons c rest ih =>
    by_cases h : c.sid = sid
    · simp only [closeConn, List.map_cons] at ih ⊢
      rw [if_pos h]
      simp [h, ih]
    · simp only [closeConn, List.map_cons] at ih ⊢
      rw [if_neg h]
      simp [ih]

theorem lookupKey_regRegister_ne (reg : List (String × List String)) (uid sid : String)
    {u : String} (hu : ¬ u = uid) :
    lookupKey (regRegister reg uid sid) u = lookupKey reg u := by
  cases hreg : lookupKey reg uid with
  | none =>
    simp only [regRegister, hreg]
    cases hlu : lookupKey reg u with
    | some l0 => rw [lookupKey_append_of_some _ hlu]
    | none =>
      rw [lookupKey_append_of_none _ _ _ hlu]
      have h2 : ¬ uid = u := fun hh => hu hh.symm
      simp [lookupKey, h2]
  | some l0 =>
    simp only [regRegister, hreg]
    exact lookupKey_updateVal_ne _ _ _ hu

theorem lookupKey_regRegister_self_none (reg : List (String × List String))
    (uid sid : String) (hreg : lookupKey reg uid = none) :
    lookupKey (regRegister reg uid sid) uid = some [sid] := by
  simp only [regRegister, hreg]
  rw [lookupKey_append_of_none _ _ _ hreg]
  simp [lookupKey]

theorem lookupKey_regRegister_self_some (reg : List (String × List String))
    (uid sid : String) {l0 : List String} (hreg : lookupKey reg uid = some l0) :
    lookupKey (regRegister reg uid sid) uid = some (addToSet l0 sid) := by
  simp only [regRegister, hreg]
  rw [lookupKey_updateVal_self, hreg]
  rfl

theorem lookupKey_regDeregister_ne (reg : List (String × List String)) (u sid : String)
    {u2 : String} (hu : ¬ u2 = u) :
    lookupKey (regDeregister reg u sid) u2 = lookupKey reg u2 := by
  cases hreg : lookupKey reg u with
  | none => simp [regDeregister, hreg]
  | some l =>
    simp only [regDeregister, hreg]
    by_cases hnil : eraseOne l sid = []
    · simp only [hnil, if_true]
      exact lookupKey_filter_ne _ _ hu
    · simp only [hnil, if_false]
      exact lookupKey_updateVal_ne _ _ _ hu

theorem lookupKey_regDeregister_self (reg : List (String × List String)) (u sid : String)
    {l : List String} (hreg : lookupKey reg u = some l) :
    lookupKey (regDeregister reg u sid) u =
      if eraseOne l sid = [] then none else some (eraseOne l sid) := by
  simp only [regDeregister, hreg]
  by_cases hnil : eraseOne l sid = []
  · simp only [hnil, if_true]
    exact lookupKey_filter_self _ _
  · simp only [hnil, if_false]
    rw [lookupKey_updateVal_self, hreg]
    rfl

theorem updateVal_updateVal {β : Type} (l : List (String × β)) (k : String) (f g : β → β) :
    updateVal (updateVal l k f) k g = updateVal l k (fun x => g (f x)) := by
  induction l with
  | nil => rfl
  | cons kv rest ih =>
    by_cases h : kv.1 = k
    · simp only [updateVal, List.map_cons] at ih ⊢
      simp [h, ih]
    · simp only [updateVal, List.map_cons] at ih ⊢
      simp [h, ih]

/-- Counterexample to C6 as stated: authenticateSocket places no guard
on re-authentication, so one socket authenticating as u1 and then as
u2 leaves a registry key for u1 although u1 has no authenticated open
connection — the claimed iff-invariant fails in a reachable state. -/
theorem registry_invariant_violated_by_reauth :
    ∃ st : RegSystem, Reach st ∧ (lookupKey st.reg "u1").isSome = true ∧
      ∀ c ∈ st.conns, ¬ (c.userId = some "u1" ∧ c.isOpen = true) := by
  refine ⟨⟨[⟨"s1", some "u2", true⟩], [("u1", ["s1"]), ("u2", ["s1"])]⟩, ?_, by decide, by decide⟩
  have h0 : Reach ⟨[], []⟩ := Reach.init
  have h1 : Reach ⟨[⟨"s1", none, true⟩], []⟩ := by
    have h := Reach.connect ⟨[], []⟩ "s1" h0 (by decide)
    have heq : (⟨([] : List Conn) ++ [⟨"s1", none, true⟩], ([] : List (String × List String))⟩ : RegSystem)
        = ⟨[⟨"s1", none, true⟩], []⟩ := by decide
    exact heq ▸ h
  have h2 : Reach ⟨[⟨"s1", some "u1", true⟩], [("u1", ["s1"])]⟩ := by
    have h := Reach.authOk ⟨[⟨"s1", none, true⟩], []⟩ "s1" "u1" ⟨"s1", none, true⟩ h1
      (by decide) rfl
    have heq : (⟨setConnUser [⟨"s1", none, true⟩] "s1" "u1",
        regRegister [] "u1" "s1"⟩ : RegSystem)
        = ⟨[⟨"s1", some "u1", true⟩], [("u1", ["s1"])]⟩ := by decide
    exact heq ▸ h
  have h3 := Reach.authOk ⟨[⟨"s1", some "u1", true⟩], [("u1", ["s1"])]⟩ "s1" "u2"
    ⟨"s1", some "u1", true⟩ h2 (by decide) rfl
  have heq : (⟨setConnUser [⟨"s1", some "u1", true⟩] "s1" "u2",
      regRegister [("u1", ["s1"])] "u2" "s1"⟩ : RegSystem)
      = ⟨[⟨"s1", some "u2", true⟩], [("u1", ["s1"]), ("u2", ["s1"])]⟩ := by decide
  exact heq ▸ h3

theorem regInv_of_reachSU : ∀ st : RegSystem, ReachSU st → RegInv st := by
  intro st h
  induction h with
  | init =>
    refine ⟨List.nodup_nil, ?_, ?_⟩
    · intro u l hl
      simp [lookupKey] at hl
    · intro u s
      constructor
      · rintro ⟨l, hl, _⟩
        simp [lookupKey] at hl
      · rintro ⟨c, hc, _⟩
        simp at hc
  | connect st0 sid hr hfind ih =>
    obtain ⟨hnodup, hvals, hiff⟩ := ih
    refine ⟨?_, hvals, ?_⟩
    · show ((st0.conns ++ [(⟨sid, none, true⟩ : Conn)]).map Conn.sid).Nodup
      rw [List.map_append, List.nodup_append]
      refine ⟨hnodup, by simp, ?_⟩
      intro a ha hb
      simp at hb
      rcases List.mem_map.mp ha with ⟨c, hc, hcs⟩
      exact ((findConn_eq_none_iff st0.conns sid).mp hfind c hc) (by rw [hcs, hb])
    · intro u s
      show sidInReg st0.reg u s ↔ liveConn (st0.conns ++ [(⟨sid, none, true⟩ : Conn)]) s u
      rw [hiff u s]
      unfold liveConn
      constructor
      · rintro ⟨c, hc, h1, h2, h3⟩
        exact ⟨c, List.mem_append_left _ hc, h1, h2, h3⟩
      · rintro ⟨c, hc, h1, h2, h3⟩
        rcases List.mem_append.mp hc with hc1 | hc2
        · exact ⟨c, hc1, h1, h2, h3⟩
        · exfalso
          simp at hc2
          rw [hc2] at h2
          simp at h2
  | authOk st0 sid uid c hr hfind hopen hsu ih =>
    obtain ⟨hnodup, hvals, hiff⟩ := ih
    obtain ⟨hcmem, hcsid⟩ := findConn_some_mem hfind
    refine ⟨?_, ?_, ?_⟩
    · show ((setConnUser st0.conns sid uid).map Conn.sid).Nodup
      rw [sids_setConnUser]
      exact hnodup
    · intro u l hl
      change lookupKey (regRegister st0.reg uid sid) u = some l at hl
      by_cases hu : u = uid
      · subst hu
        cases hreg : lookupKey st0.reg u with
        | none =>
          rw [lookupKey_regRegister_self_none _ _ _ hreg] at hl
          injection hl with hl2
          rw [← hl2]
          exact ⟨by simp, by simp⟩
        | some l0 =>
          rw [lookupKey_regRegister_self_some _ _ _ hreg] at hl
          injection hl with hl2
          rw [← hl2]
          exact ⟨addToSet_ne_nil _ _, nodup_addToSet _ _ (hvals _ _ hreg).2⟩
      · rw [lookupKey_regRegister_ne _ _ _ hu] at hl
        exact hvals u l hl
    · intro u s
      show sidInReg (regRegister st0.reg uid sid) u s
          ↔ liveConn (setConnUser st0.conns sid uid) s u
      by_cases hs : s = sid
      · subst hs
        rw [liveConn_setConnUser_self st0.conns s uid u c hfind hopen]
        constructor
        · rintro ⟨l, hl, hmem⟩
          by_cases hu : u = uid
          · exact hu
          · exfalso
            rw [lookupKey_regRegister_ne _ _ _ hu] at hl
            have hlive : liveConn st0.conns s u := (hiff u s).mp ⟨l, hl, hmem⟩
            have hc2 := liveConn_unique st0.conns hnodup hfind hlive
            rcases hsu with hnone | hsame
            · rw [hnone] at hc2
              cases hc2.1
            · rw [hsame] at hc2
              exact hu (Option.some.inj hc2.1).symm
        · rintro rfl
          cases hreg : lookupKey st0.reg u with
          | none =>
            exact ⟨[s], lookupKey_regRegister_self_none _ _ _ hreg, by simp⟩
          | some l0 =>
            exact ⟨addToSet l0 s, lookupKey_regRegister_self_some _ _ _ hreg,
              (mem_addToSet _ _ _).mpr (Or.inr rfl)⟩
      · rw [liveConn_setConnUser_ne st0.conns sid uid s u hs, ← hiff u s]
        by_cases hu : u = uid
        · subst hu
          cases hreg : lookupKey st0.reg u with
          | none =>
            constructor
            · rintro ⟨l, hl, hmem⟩
              rw [lookupKey_regRegister_self_none _ _ _ hreg] at hl
              injection hl with hl2
              rw [← hl2] at hmem
              simp at hmem
              exact absurd hmem hs
            · rintro ⟨l, hl, _⟩
              rw [hreg] at hl
              cases hl
          | some l0 =>
            constructor
            · rintro ⟨l, hl, hmem⟩
              rw [lookupKey_regRegister_self_some _ _ _ hreg] at hl
              injection hl with hl2
              rw [← hl2] at hmem
              rcases (mem_addToSet _ _ _).mp hmem with h1 | h2
              · exact ⟨l0, hreg, h1⟩
              · exact absurd h2 hs
            · rintro ⟨l, hl, hmem⟩
              rw [hreg] at hl
              injection hl with hl2
              subst hl2
              exact ⟨addToSet l0 sid, lookupKey_regRegister_self_some _ _ _ hreg,
                (mem_addToSet _ _ _).mpr (Or.inl hmem)⟩
        · constructor
          · rintro ⟨l, hl, hmem⟩
            rw [lookupKey_regRegister_ne _ _ _ hu] at hl
            exact ⟨l, hl, hmem⟩
          · rintro ⟨l, hl, hmem⟩
            refine ⟨l, ?_, hmem⟩
            rw [lookupKey_regRegister_ne _ _ _ hu]
            exact hl
  | disconnect st0 sid c hr hfind hopen ih =>
    obtain ⟨hnodup, hvals, hiff⟩ := ih
    obtain ⟨hcmem, hcsid⟩ := findConn_some_mem hfind
    cases hcu : c.userId with
    | none =>
      refine ⟨?_, ?_, ?_⟩
      · show ((closeConn st0.conns sid).map Conn.sid).Nodup
        rw [sids_closeConn]
        exact hnodup
      · intro u l hl
        exact hvals u l hl
      · intro u s
        show sidInReg st0.reg u s ↔ liveConn (closeConn st0.conns sid) s u
        by_cases hs : s = sid
        · subst hs
          constructor
          · intro hsi
            exfalso
            have hlive := (hiff u s).mp hsi
            have hc2 := liveConn_unique st0.conns hnodup hfind hlive
            rw [hcu] at hc2
            cases hc2.1
          · intro hlive
            exact absurd hlive (not_liveConn_closeConn_self _ _ _)
        · rw [liveConn_closeConn_ne _ _ _ _ hs]
          exact hiff u s
    | some u0 =>
      refine ⟨?_, ?_, ?_⟩
      · show ((closeConn st0.conns sid).map Conn.sid).Nodup
        rw [sids_closeConn]
        exact hnodup
      · intro u l hl
        change lookupKey (regDeregister st0.reg u0 sid) u = some l at hl
        by_cases hu : u = u0
        · subst hu
          cases hreg : lookupKey st0.reg u with
          | none =>
            have heq0 : regDeregister st0.reg u sid = st0.reg := by
              simp [regDeregister, hreg]
            rw [heq0] at hl
            exact hvals u l hl
          | some l1 =>
            rw [lookupKey_regDeregister_self _ _ _ hreg] at hl
            by_cases hnil : eraseOne l1 sid = []
            · rw [if_pos hnil] at hl
              cases hl
            · rw [if_neg hnil] at hl
              injection hl with hl2
              rw [← hl2]
              exact ⟨hnil, nodup_eraseOne _ _ (hvals _ _ hreg).2⟩
        · rw [lookupKey_regDeregister_ne _ _ _ hu] at hl
          exact hvals u l hl
      · intro u s
        change sidInReg (regDeregister st0.reg u0 sid) u s
            ↔ liveConn (closeConn st0.conns sid) s u
        by_cases hs : s = sid
        · subst hs
          constructor
          · rintro ⟨l, hl, hmem⟩
            exfalso
            by_cases hu : u = u0
            · subst hu
              cases hreg : lookupKey st0.reg u with
              | none =>
                have heq0 : regDeregister st0.reg u s = st0.reg := by
                  simp [regDeregister, hreg]
                rw [heq0, hreg] at hl
                cases hl
              | some l1 =>
                rw [lookupKey_regDeregister_self _ _ _ hreg] at hl
                by_cases hnil : eraseOne l1 s = []
                · rw [if_pos hnil] at hl
                  cases hl
                · rw [if_neg hnil] at hl
                  injection hl with hl2
                  rw [← hl2] at hmem
                  exact not_mem_eraseOne_self l1 s (hvals _ _ hreg).2 hmem
            · rw [lookupKey_regDeregister_ne _ _ _ hu] at hl
              have hlive := (hiff u s).mp ⟨l, hl, hmem⟩
              have hx := liveConn_unique st0.conns hnodup hfind hlive
              rw [hcu] at hx
              exact hu (Option.some.inj hx.1).symm
          · intro hlive
            exact absurd hlive (not_liveConn_closeConn_self _ _ _)
        · rw [liveConn_closeConn_ne _ _ _ _ hs, ← hiff u s]
          by_cases hu : u = u0
          · subst hu
            cases hreg : lookupKey st0.reg u with
            | none =>
              have heq0 : regDeregister st0.reg u sid = st0.reg := by
                simp [regDeregister, hreg]
              rw [heq0]
            | some l1 =>
              constructor
              · rintro ⟨l, hl, hmem⟩
                rw [lookupKey_regDeregister_self _ _ _ hreg] at hl
                by_cases hnil : eraseOne l1 sid = []
                · rw [if_pos hnil] at hl
                  cases hl
                · rw [if_neg hnil] at hl
                  injection hl with hl2
                  rw [← hl2] at hmem
                  exact ⟨l1, hreg, (mem_eraseOne_of_ne l1 sid s hs).mp hmem⟩
              · rintro ⟨l, hl, hmem⟩
                rw [hreg] at hl
                injection hl with he
                have hm : s ∈ l1 := by rw [he]; exact hmem
                have hmem2 : s ∈ eraseOne l1 sid := (mem_eraseOne_of_ne l1 sid s hs).mpr hm
                by_cases hnil : eraseOne l1 sid = []
                · rw [hnil] at hmem2
                  cases hmem2
                · refine ⟨eraseOne l1 sid, ?_, hmem2⟩
                  rw [lookupKey_regDeregister_self _ _ _ hreg, if_neg hnil]
          · constructor
            · rintro ⟨l, hl, hmem⟩
              rw [lookupKey_regDeregister_ne _ _ _ hu] at hl
              exact ⟨l, hl, hmem⟩
            · rintro ⟨l, hl, hmem⟩
              refine ⟨l, ?_, hmem⟩
              rw [lookupKey_regDeregister_ne _ _ _ hu]
              exact hl

/-- Claim C6 (amended): under the single-identity discipline (each
connection only ever authenticates as one user — the source does not
itself enforce this, see the counterexample), a user id has a registry
entry iff at least one of its connections is authenticated and open;
removing the last connection removes the entry; deregistration is
idempotent (on duplicate-free sets), never a runtime error, never
touches another user's entry, and never removes another connection of
the same user. -/
theorem registry_key_iff_live_and_deregister_props :
    (∀ st : RegSystem, ReachSU st → ∀ u : String,
      ((lookupKey st.reg u).isSome = true ↔ ∃ sid, liveConn st.conns sid u)) ∧
    (∀ (reg : List (String × List String)) (u sid : String),
      lookupKey reg u = some [sid] → lookupKey (regDeregister reg u sid) u = none) ∧
    (∀ (reg : List (String × List String)) (u sid : String),
      (∀ l, lookupKey reg u = some l → l.Nodup) →
      regDeregister (regDeregister reg u sid) u sid = regDeregister reg u sid) ∧
    (∀ (reg : List (String × List String)) (u sid u2 : String), ¬ u2 = u →
      lookupKey (regDeregister reg u sid) u2 = lookupKey reg u2) ∧
    (∀ (reg : List (String × List String)) (u sid s : String), ¬ s = sid →
      (sidInReg (regDeregister reg u sid) u s ↔ sidInReg reg u s)) := by
  refine ⟨?_, ?_, ?_, ?_, ?_⟩
  · intro st h u
    obtain ⟨hnodup, hvals, hiff⟩ := regInv_of_reachSU st h
    constructor
    · intro hsome
      cases hl : lookupKey st.reg u with
      | none =>
        rw [hl] at hsome
        cases hsome
      | some l =>
        obtain ⟨hne, _⟩ := hvals u l hl
        cases l with
        | nil => exact absurd rfl hne
        | cons a rest =>
          exact ⟨a, (hiff u a).mp ⟨a :: rest, hl, by simp⟩⟩
    · rintro ⟨sid, hlive⟩
      rcases (hiff u sid).mpr hlive with ⟨l, hl, _⟩
      rw [hl]
      rfl
  · intro reg u sid hreg
    rw [lookupKey_regDeregister_self _ _ _ hreg]
    simp [eraseOne]
  · intro reg u sid hnd
    cases hreg : lookupKey reg u with
    | none => simp [regDeregister, hreg]
    | some l =>
      have hlnd := hnd l hreg
      by_cases hnil : eraseOne l sid = []
      · have h1 : regDeregister reg u sid = reg.filter (fun kv => ¬ kv.1 = u) := by
          simp [regDeregister, hreg, hnil]
        have h2 : lookupKey (reg.filter fun kv => ¬ kv.1 = u) u = none :=
          lookupKey_filter_self _ _
        rw [h1]
        simp only [decide_not] at h2 ⊢
        simp [regDeregister, h2]
      · have h1 : regDeregister reg u sid = updateVal reg u (fun _ => eraseOne l sid) := by
          simp [regDeregister, hreg, hnil]
        rw [h1]
        have h2 : lookupKey (updateVal reg u fun _ => eraseOne l sid) u
            = some (eraseOne l sid) := by
          rw [lookupKey_updateVal_self, hreg]
          rfl
        have h3 : eraseOne (eraseOne l sid) sid = eraseOne l sid :=
          eraseOne_of_not_mem _ _ (not_mem_eraseOne_self l sid hlnd)
        simp only [regDeregister, h2, h3, hnil, if_false]
        exact updateVal_updateVal reg u _ _
  · intro reg u sid u2 hu
    exact lookupKey_regDeregister_ne _ _ _ hu
  · intro reg u sid s hs
    cases hreg : lookupKey reg u with
    | none =>
      have h1 : regDeregister reg u sid = reg := by simp [regDeregister, hreg]
      rw [h1]
    | some l =>
      constructor
      · rintro ⟨l2, hl2, hmem⟩
        rw [lookupKey_regDeregister_self _ _ _ hreg] at hl2
        by_cases hnil : eraseOne l sid = []
        · rw [if_pos hnil] at hl2
          cases hl2
        · rw [if_neg hnil] at hl2
          injection hl2 with he
          rw [← he] at hmem
          exact ⟨l, hreg, (mem_eraseOne_of_ne l sid s hs).mp hmem⟩
      · rintro ⟨l2, hl2, hmem⟩
        rw [hreg] at hl2
        injection hl2 with he
        have hm : s ∈ l := by rw [he]; exact hmem
        have hmem2 : s ∈ eraseOne l sid := (mem_eraseOne_of_ne l sid s hs).mpr hm
        by_cases hnil : eraseOne l sid = []
        · rw [hnil] at hmem2
          cases hmem2
        · refine ⟨eraseOne l sid, ?_, hmem2⟩
          rw [lookupKey_regDeregister_self _ _ _ hreg, if_neg hnil]

/-- Witness for amended C6: removing the last connection of u1 removes
the entry. -/
theorem registry_key_iff_live_and_deregister_props_witness :
    lookupKey (regDeregister [("u1", ["s1"])] "u1" "s1") "u1" = none :=
  registry_key_iff_live_and_deregister_props.2.1 [("u1", ["s1"])] "u1" "s1" (by decide)

theorem regKeysNodup_of_reach : ∀ st : RegSystem, Reach st → (st.reg.map Prod.fst).Nodup := by
  intro st h
  induction h with
  | init => simp
  | connect st0 sid hr hfind ih => exact ih
  | authOk st0 sid uid c hr hfind hopen ih =>
    show ((regRegister st0.reg uid sid).map Prod.fst).Nodup
    cases hreg : lookupKey st0.reg uid with
    | none =>
      simp only [regRegister, hreg]
      rw [List.map_append, List.nodup_append]
      refine ⟨ih, by simp, ?_⟩
      intro a ha hb
      simp at hb
      rw [hb] at ha
      exact ((lookupKey_eq_none_iff st0.reg uid).mp hreg) ha
    | some l0 =>
      simp only [regRegister, hreg]
      rw [keys_updateVal]
      exact ih
  | disconnect st0 sid c hr hfind hopen ih =>
    cases hcu : c.userId with
    | none => exact ih
    | some u0 =>
      show ((regDeregister st0.reg u0 sid).map Prod.fst).Nodup
      cases hreg : lookupKey st0.reg u0 with
      | none => simpa [regDeregister, hreg] using ih
      | some l =>
        by_cases hnil : eraseOne l sid = []
        · simp only [regDeregister, hreg, hnil, if_true]
          exact ((List.filter_sublist _).map Prod.fst).nodup ih
        · simp only [regDeregister, hreg, hnil, if_false]
          rw [keys_updateVal]
          exact ih

/-- Claim C10: in every reachable state the authenticated and users
fields of getConnectionCount are equal, and both equal the number of
distinct user ids in the user-to-connections map (so a user with
several authenticated connections contributes exactly one). -/
theorem connection_count_authenticated_eq_users (st : RegSystem) (h : Reach st) :
    (getConnectionCount st).authenticated = (getConnectionCount st).users ∧
    (getConnectionCount st).users = (st.reg.map Prod.fst).dedup.length := by
  refine ⟨by simp [getConnectionCount], ?_⟩
  have hnd := regKeysNodup_of_reach st h
  simp [getConnectionCount, List.dedup_eq_self.mpr hnd]

/-- Witness for C10 at a reachable state where one user holds two
authenticated connections: the authenticated count is 1, not 2. -/
theorem connection_count_authenticated_eq_users_witness :
    (getConnectionCount ⟨[⟨"s1", some "u1", true⟩, ⟨"s2", some "u1", true⟩],
        [("u1", ["s1", "s2"])]⟩).authenticated = 1 := by
  have h0 : Reach ⟨[], []⟩ := Reach.init
  have h1 : Reach ⟨[⟨"s1", none, true⟩], []⟩ := by
    have h := Reach.connect ⟨[], []⟩ "s1" h0 (by decide)
    have heq : (⟨([] : List Conn) ++ [⟨"s1", none, true⟩],
        ([] : List (String × List String))⟩ : RegSystem)
        = ⟨[⟨"s1", none, true⟩], []⟩ := by decide
    exact heq ▸ h
  have h2 : Reach ⟨[⟨"s1", none, true⟩, ⟨"s2", none, true⟩], []⟩ := by
    have h := Reach.connect ⟨[⟨"s1", none, true⟩], []⟩ "s2" h1 (by decide)
    have heq : (⟨[⟨"s1", none, true⟩] ++ [⟨"s2", none, true⟩],
        ([] : List (String × List String))⟩ : RegSystem)
        = ⟨[⟨"s1", none, true⟩, ⟨"s2", none, true⟩], []⟩ := by decide
    exact heq ▸ h
  have h3 : Reach ⟨[⟨"s1", some "u1", true⟩, ⟨"s2", none, true⟩], [("u1", ["s1"])]⟩ := by
    have h := Reach.authOk ⟨[⟨"s1", none, true⟩, ⟨"s2", none, true⟩], []⟩ "s1" "u1"
      ⟨"s1", none, true⟩ h2 (by decide) rfl
    have heq : (⟨setConnUser [⟨"s1", none, true⟩, ⟨"s2", none, true⟩] "s1" "u1",
        regRegister [] "u1" "s1"⟩ : RegSystem)
        = ⟨[⟨"s1", some "u1", true⟩, ⟨"s2", none, true⟩], [("u1", ["s1"])]⟩ := by decide
    exact heq ▸ h
  have h4 : Reach ⟨[⟨"s1", some "u1", true⟩, ⟨"s2", some "u1", true⟩],
      [("u1", ["s1", "s2"])]⟩ := by
    have h := Reach.authOk ⟨[⟨"s1", some "u1", true⟩, ⟨"s2", none, true⟩],
      [("u1", ["s1"])]⟩ "s2" "u1" ⟨"s2", none, true⟩ h3 (by decide) rfl
    have heq : (⟨setConnUser [⟨"s1", some "u1", true⟩, ⟨"s2", none, true⟩] "s2" "u1",
        regRegister [("u1", ["s1"])] "u1" "s2"⟩ : RegSystem)
        = ⟨[⟨"s1", some "u1", true⟩, ⟨"s2", some "u1", true⟩], [("u1", ["s1", "s2"])]⟩ := by
      decide
    exact heq ▸ h
  have hthm := connection_count_authenticated_eq_users _ h4
  rw [hthm.1]
  decide

end NotificationService
